import Mathlib

/-!
Shallow embedding of `main_denoising.py` from the DIHARD18 denoising
repository, together with proofs about its chunking, fusion, error-handling
and assembly behaviour.

Modelling conventions:
- numpy sample buffers are `List ℤ`; spectral feature matrices are
  `List (List ℚ)` (Python floats are modelled by exact rationals);
- external numeric routines that live outside `main_denoising.py`
  (`np.log`, `utils.wav2logspec`, `utils.logspec2wav`, `decode_model`,
  `traceback.format_exc`) are abstract parameters bundled in `ExternalOps`,
  so every theorem quantifies over their behaviour;
- Python exceptions are values of the structure `PyExc` (a type name plus a
  message), and fallible code returns `Except PyExc`.
-/

namespace Denoising

/-- Expected sample rate (Hz) of input WAV (`SR = 16000`). -/
def SR : ℕ := 16000

/-- Expected number of channels of input WAV. -/
def NUM_CHANNELS : ℕ := 1

/-- Expected bitdepth of input WAV. -/
def BITDEPTH : ℕ := 16

/-- Analysis window length in samples for feature extraction. -/
def WL : ℕ := 512

/-- Half window, `WL // 2` (the short-chunk threshold). -/
def WL2 : ℕ := WL / 2

/-- Number of positive frequencies in FFT output. -/
def NFREQS : ℕ := 257

/-- A feature matrix (`frames × NFREQS` of log-power-spectrum values). -/
abbrev Mat := List (List ℚ)

/-- A statistics vector (global mean or variance, length `NFREQS`). -/
abbrev Vec := List ℚ

/-- A Python exception value: the name of its type and its message text. -/
structure PyExc where
  ty : String
  msg : String
deriving DecidableEq

/-- Truncation of a rational toward zero, the behaviour of Python `int()`
on a float. -/
def ratTrunc (q : ℚ) : ℤ := Int.tdiv q.num q.den

/-- Cast an integer sample value to a 16-bit signed integer the way
`ndarray.astype(np.int16)` does: reduce modulo `2^16` into the signed
range (wrap-around, no clamping). -/
def toInt16 (z : ℤ) : ℤ := (z + 32768) % 65536 - 32768

/-- Lower-casing of a string (`str.lower()` for the ASCII names used here). -/
def lowerStr (s : String) : String := String.mk (s.data.map Char.toLower)

/-- Sequential effectful map over a list that stops at the first error,
the semantics of the Python chunk loop in which a raised exception aborts
the whole file. -/
def mapME {α β ε : Type} (f : α → Except ε β) : List α → Except ε (List β)
  | [] => .ok []
  | x :: xs =>
    match f x with
    | .error e => .error e
    | .ok y =>
      match mapME f xs with
      | .error e => .error e
      | .ok ys => .ok (y :: ys)

/-- Entry `(i, j)` of a feature matrix (with default `0` out of range). -/
def entry (m : Mat) (i j : ℕ) : ℚ := (m.getD i []).getD j 0

/-- Entry `j` of a statistics vector (with default `0` out of range). -/
def entryV (v : Vec) (j : ℕ) : ℚ := v.getD j 0

/-- Elementwise sum of two matrices (numpy `a + b` on equal shapes). -/
def matAdd (a b : Mat) : Mat := List.zipWith (List.zipWith (· + ·)) a b

/-- Elementwise application of a scalar function (numpy `np.log(a)` etc.). -/
def matMap (f : ℚ → ℚ) (m : Mat) : Mat := m.map (List.map f)

/-- Scalar multiple of a matrix (numpy `c * a`). -/
def matSmul (c : ℚ) (m : Mat) : Mat := m.map (List.map (c * ·))

/-- Row-broadcast subtraction of a vector (numpy `a - v`). -/
def bSub (m : Mat) (v : Vec) : Mat := m.map fun r => List.zipWith (· - ·) r v

/-- Row-broadcast division by a vector (numpy `a / v`). -/
def bDiv (m : Mat) (v : Vec) : Mat := m.map fun r => List.zipWith (· / ·) r v

/-- Row-broadcast multiplication by a vector (numpy `a * v`). -/
def bMul (m : Mat) (v : Vec) : Mat := m.map fun r => List.zipWith (· * ·) r v

/-- Row-broadcast addition of a vector (numpy `a + v`). -/
def bAdd (m : Mat) (v : Vec) : Mat := m.map fun r => List.zipWith (· + ·) r v

/-- Modelled from the spec: the call `utils.peak_normalization(wav_data)` at
line 153 of `main_denoising.py` lives in `utils.py`, which is not among the
sources here. The specification describes the data flow as
waveform → chunks → features with no amplitude-rescaling step between
reading and chunking, so the transform is modelled as the identity on the
sample buffer. -/
def peak_normalization (buf : List ℤ) : List ℤ := buf

/-- Chunk size in samples, `chunk_length = int(truncate_minutes*rate*60)`
(line 156; Python `int()` truncates toward zero). -/
def chunk_length (truncateMinutes : ℚ) (rate : ℕ) : ℤ :=
  ratTrunc (truncateMinutes * (rate : ℚ) * 60)

/-- Number of chunks, `int(math.ceil(wav_data.size / chunk_length))`
(lines 157-158, true division). Only meaningful when `cl ≠ 0`; the caller
raises `ZeroDivisionError` first when `cl = 0`. -/
def total_chunks (bufLen : ℕ) (cl : ℤ) : ℤ :=
  Int.ceil ((bufLen : ℚ) / (cl : ℚ))

/-- The chunk slices produced by the loop of lines 160-166: chunk `i`
(1-based) is `wav_data[(i-1)*chunk_length : i*chunk_length]`, which Python
clips to the buffer length. Indexing here is 0-based over `List.range`. -/
def pyChunks (buf : List ℤ) (cl total : ℕ) : List (List ℤ) :=
  (List.range total).map fun k => (buf.drop (k * cl)).take cl

/-- The features written for the estimator (lines 186-198): variant
`"400h"` sends mean-variance normalized features, variant `"1000h"` sends
the raw log-power spectrum; any other variant writes nothing. -/
def sentFeatures (ms : String) (noisy : Mat) (mean var : Vec) : Option Mat :=
  if lowerStr ms = "400h" then some (bDiv (bSub noisy mean) var)
  else if lowerStr ms = "1000h" then some noisy
  else none

/-- The message sent back over the pipe by `Process.run` (lines 93-99):
`None` on success, the pair of the raised exception and its formatted
traceback on failure. Read back by the `exception` property. -/
def Process_exception {α : Type} (target : Except PyExc α)
    (fm : PyExc → String) : Option (PyExc × String) :=
  match target with
  | .ok _ => none
  | .error e => some (e, fm e)

/-- The gateway invocation of lines 211-218: run the estimator in the
isolated process, then `if p.exception: e, tb = p.exception;
raise type(e)(tb)` — on failure a new exception of the original type
carrying the captured traceback text is raised in the caller. -/
def gatewayCall {α : Type} (result : Except PyExc α)
    (fm : PyExc → String) : Except PyExc α :=
  match Process_exception result fm with
  | some (e, tb) => .error { ty := e.ty, msg := tb }
  | none => result

/-- External collaborators of `denoise_wav` that are not defined in
`main_denoising.py`, taken as abstract parameters. -/
structure ExternalOps where
  ln : ℚ → ℚ
  wav2logspec : List ℤ → Mat
  logspec2wav : Mat → List ℤ → List ℤ
  decode : Option Mat → Except PyExc (Mat × Mat)
  fm : PyExc → String

/-- The fusion step of lines 224-229: `recovered_lps` by mode. A mode
outside `{1, 2, 3}` leaves the variable unassigned (`none`). -/
def recovered_lps (ln : ℚ → ℚ) (mode : ℤ) (noisy irm lps : Mat)
    (mean var : Vec) : Option Mat :=
  if mode = 1 then some (matAdd noisy (matMap ln irm))
  else if mode = 2 then some (bAdd (bMul lps var) mean)
  else if mode = 3 then
    some (matAdd (matSmul (1/2) (matAdd noisy (matMap ln irm)))
      (matSmul (1/2) (bAdd (bMul lps var) mean)))
  else none

/-- Body of the chunk loop (lines 163-235): a chunk shorter than
`WL2 = 256` samples is appended unchanged; otherwise features are
extracted, sent to the estimator through the gateway, fused per `mode`,
and resynthesized. -/
def processChunk (ops : ExternalOps) (mode : ℤ) (ms : String)
    (mean var : Vec) (temp : List ℤ) : Except PyExc (List ℤ) :=
  if temp.length < WL2 then .ok temp
  else
    match gatewayCall (ops.decode (sentFeatures ms (ops.wav2logspec temp) mean var)) ops.fm with
    | .error e => .error e
    | .ok (irm, lps) =>
      match recovered_lps ops.ln mode (ops.wav2logspec temp) irm lps mean var with
      | none => .error { ty := "NameError", msg := "recovered_lps referenced before assignment" }
      | some r => .ok (ops.logspec2wav r temp)

/-- Lines 152-235 of `denoise_wav`: peak normalization, chunk scheduling
and the per-chunk loop, producing the list `data_se` of enhanced segments.
A zero `chunk_length` raises `ZeroDivisionError` in the `total_chunks`
division. -/
def denoise_segments (ops : ExternalOps) (mode : ℤ) (ms : String)
    (mean var : Vec) (truncateMinutes : ℚ) (rate : ℕ)
    (wavData : List ℤ) : Except PyExc (List (List ℤ)) :=
  if chunk_length truncateMinutes rate = 0 then
    .error { ty := "ZeroDivisionError", msg := "division by zero" }
  else
    mapME (processChunk ops mode ms mean var)
      (pyChunks (peak_normalization wavData) (chunk_length truncateMinutes rate).toNat
        (total_chunks (peak_normalization wavData).length
          (chunk_length truncateMinutes rate)).toNat)

/-- Lines 238-240: cast every segment to `int16`, concatenate in chunk
order (`np.concatenate` raises `ValueError` on an empty list), and return
the assembled samples that `wav_io.write` persists. -/
def assemble (segs : List (List ℤ)) : Except PyExc (List ℤ) :=
  let cast := segs.map (List.map toInt16)
  if cast.isEmpty then
    .error { ty := "ValueError", msg := "need at least one array to concatenate" }
  else .ok cast.flatten

/-- The whole of `denoise_wav` (lines 108-240): the assembled output
samples, or the first exception raised. An output file is written exactly
when the result is `ok`. -/
def denoise_wav (ops : ExternalOps) (mode : ℤ) (ms : String)
    (mean var : Vec) (truncateMinutes : ℚ) (rate : ℕ)
    (wavData : List ℤ) : Except PyExc (List ℤ) :=
  match denoise_segments ops mode ms mean var truncateMinutes rate wavData with
  | .error e => .error e
  | .ok segs => assemble segs

/-- An input WAV file as seen by `main_denoising`: its basename, the
outcomes of the `utils` precondition probes (which live outside this
module), and its sample data. -/
structure WavFile where
  basename : String
  onDisk : Bool
  isWavFormat : Bool
  sr : ℕ
  numChannels : ℕ
  bitdepth : ℕ
  samples : List ℤ
deriving DecidableEq, Inhabited

/-- The precondition checks of lines 272-288, returning the first failing
diagnostic, if any. -/
def checkFile (f : WavFile) : Option String :=
  if ¬ f.onDisk then some "File does not exist. Skipping."
  else if ¬ f.isWavFormat then some "File is not WAV. Skipping."
  else if f.sr ≠ SR then some "Sample rate of file is not 16000 Hz. Skipping."
  else if f.numChannels ≠ NUM_CHANNELS then some "File is not monochannel. Skipping."
  else if f.bitdepth ≠ BITDEPTH then some "Bitdepth of file is not 16. Skipping."
  else none

/-- The diagnostic emitted by lines 296-300 when `denoise_wav` raises:
the base message, with the full error output appended only in verbose
mode. -/
def errMsg (verbose : Bool) (e : PyExc) : String :=
  if verbose then
    "Problem encountered while processing file. Skipping. Full error output:\n" ++ e.msg
  else "Problem encountered while processing file. Skipping."

/-- Result of processing one file in the batch: either skipped with a
diagnostic (no output written) or written with its output samples. -/
inductive FileOutcome where
  | skipped (msg : String)
  | written (name : String) (data : List ℤ)
deriving DecidableEq, Inhabited

/-- One iteration of the batch loop (lines 270-301): precondition checks,
then `denoise_wav` under the per-file exception handler. -/
def processFile (ops : ExternalOps) (mode : ℤ) (ms : String)
    (mean var : Vec) (truncateMinutes : ℚ) (verbose : Bool)
    (f : WavFile) : FileOutcome :=
  match checkFile f with
  | some m => .skipped m
  | none =>
    match denoise_wav ops mode ms mean var truncateMinutes f.sr f.samples with
    | .ok out => .written f.basename out
    | .error e => .skipped (errMsg verbose e)

/-- The batch loop of `main_denoising` (lines 270-301): every file yields
exactly one outcome and the loop always continues to the next file. -/
def main_denoising (ops : ExternalOps) (mode : ℤ) (ms : String)
    (mean var : Vec) (truncateMinutes : ℚ) (verbose : Bool)
    (files : List WavFile) : List FileOutcome :=
  files.map (processFile ops mode ms mean var truncateMinutes verbose)

/-! ### Indexing helper lemmas -/

theorem zipWith_getD {α β γ : Type} (f : α → β → γ) (da : α) (db : β) (dc : γ)
    (a : List α) (b : List β) (i : ℕ) (ha : i < a.length) (hb : i < b.length) :
    (List.zipWith f a b).getD i dc = f (a.getD i da) (b.getD i db) := by
  induction a generalizing b i with
  | nil => simp at ha
  | cons x xs ih =>
    cases b with
    | nil => simp at hb
    | cons y ys =>
      cases i with
      | zero => simp
      | succ n =>
        simp only [List.zipWith_cons_cons, List.getD_cons_succ]
        exact ih ys n (by simpa using ha) (by simpa using hb)

theorem map_getD {α β : Type} (f : α → β) (da : α) (db : β) (l : List α) (i : ℕ)
    (h : i < l.length) : (l.map f).getD i db = f (l.getD i da) := by
  induction l generalizing i with
  | nil => simp at h
  | cons x xs ih =>
    cases i with
    | zero => simp
    | succ n =>
      simp only [List.map_cons, List.getD_cons_succ]
      exact ih n (by simpa using h)

theorem mapME_ok_length {α β ε : Type} (f : α → Except ε β) (l : List α)
    (ys : List β) (h : mapME f l = .ok ys) : ys.length = l.length := by
  induction l generalizing ys with
  | nil => simp [mapME] at h; simp [← h]
  | cons x xs ih =>
    simp only [mapME] at h
    cases hf : f x with
    | error e => rw [hf] at h; simp at h
    | ok y =>
      rw [hf] at h
      cases hr : mapME f xs with
      | error e => rw [hr] at h; simp at h
      | ok ys2 =>
        rw [hr] at h
        simp at h
        simp [← h, List.length_cons, ih ys2 hr]

theorem mapME_ok_getD {α β ε : Type} (f : α → Except ε β) (l : List α)
    (ys : List β) (da : α) (db : β) (h : mapME f l = .ok ys) (k : ℕ)
    (hk : k < l.length) : f (l.getD k da) = .ok (ys.getD k db) := by
  induction l generalizing ys k with
  | nil => simp at hk
  | cons x xs ih =>
    simp only [mapME] at h
    cases hf : f x with
    | error e => rw [hf] at h; simp at h
    | ok y =>
      rw [hf] at h
      cases hr : mapME f xs with
      | error e => rw [hr] at h; simp at h
      | ok ys2 =>
        rw [hr] at h
        simp at h
        cases k with
        | zero => simp [← h, hf]
        | succ n =>
          rw [← h]
          simp only [List.getD_cons_succ]
          exact ih ys2 hr n (by simpa using hk)

/-! ### Ceiling-division and chunk-partition lemmas -/

theorem ceil_div_nat (L cl : ℕ) (hL : 0 < L) (hcl : 0 < cl) :
    Int.ceil ((L : ℚ) / (cl : ℚ)) = ((L + cl - 1) / cl : ℕ) := by
  have h1 : L ≤ cl * ((L - 1) / cl + 1) := by
    have h := Nat.lt_mul_div_succ (L - 1) hcl
    omega
  have h2 : (L - 1) / cl * cl < L := by
    have h := Nat.div_mul_le_self (L - 1) cl
    omega
  have hsplit : (L + cl - 1) / cl = (L - 1) / cl + 1 := by
    rw [show L + cl - 1 = (L - 1) + cl by omega]
    exact Nat.add_div_right _ hcl
  rw [hsplit, Int.ceil_eq_iff]
  have hclq : (0 : ℚ) < (cl : ℚ) := by exact_mod_cast hcl
  have hcast : ((((L - 1) / cl + 1 : ℕ) : ℤ) : ℚ) = (((L - 1) / cl : ℕ) : ℚ) + 1 := by
    rw [Int.cast_natCast, Nat.cast_add, Nat.cast_one]
  constructor
  · rw [lt_div_iff₀ hclq, hcast]
    have h2q : (((L - 1) / cl : ℕ) : ℚ) * (cl : ℚ) < (L : ℚ) := by exact_mod_cast h2
    linarith [h2q]
  · rw [div_le_iff₀ hclq, hcast]
    have h1q : (L : ℚ) ≤ (cl : ℚ) * ((((L - 1) / cl : ℕ) : ℚ) + 1) := by exact_mod_cast h1
    linarith [h1q]

theorem total_chunks_toNat (L cl : ℕ) (hL : 0 < L) (hcl : 0 < cl) :
    (total_chunks L (cl : ℤ)).toNat = (L + cl - 1) / cl := by
  unfold total_chunks
  rw [show (((cl : ℤ) : ℚ)) = (cl : ℚ) by push_cast; ring]
  rw [ceil_div_nat L cl hL hcl]
  exact Int.toNat_natCast _

theorem total_chunks_zero (cl : ℤ) : total_chunks 0 cl = 0 := by
  simp [total_chunks]

theorem pyChunks_length (buf : List ℤ) (cl n : ℕ) :
    (pyChunks buf cl n).length = n := by
  simp [pyChunks]

theorem pyChunks_getD (buf : List ℤ) (cl n k : ℕ) (hk : k < n) :
    (pyChunks buf cl n).getD k [] = (buf.drop (k * cl)).take cl := by
  unfold pyChunks
  rw [map_getD _ 0 [] _ k (by simpa using hk)]
  rw [List.getD_eq_getElem?_getD, List.getElem?_range hk]
  rfl

theorem pyChunks_flatten (buf : List ℤ) (cl n : ℕ) :
    (pyChunks buf cl n).flatten = buf.take (n * cl) := by
  induction n with
  | zero => simp [pyChunks]
  | succ m ih =>
    unfold pyChunks at ih ⊢
    rw [List.range_succ, List.map_append, List.flatten_append, ih]
    rw [show (m + 1) * cl = m * cl + cl from Nat.succ_mul m cl, List.take_add]
    simp

theorem pyChunks_flatten_full (buf : List ℤ) (cl n : ℕ)
    (h : buf.length ≤ n * cl) : (pyChunks buf cl n).flatten = buf := by
  rw [pyChunks_flatten]
  exact List.take_of_length_le h

/-! ### Entrywise characterization of the matrix operations -/

theorem length_matMap (f : ℚ → ℚ) (m : Mat) : (matMap f m).length = m.length := by
  simp [matMap]

theorem length_matSmul (c : ℚ) (m : Mat) : (matSmul c m).length = m.length := by
  simp [matSmul]

theorem length_matAdd (a b : Mat) : (matAdd a b).length = min a.length b.length := by
  simp [matAdd]

theorem length_bMul (m : Mat) (v : Vec) : (bMul m v).length = m.length := by
  simp [bMul]

theorem length_bAdd (m : Mat) (v : Vec) : (bAdd m v).length = m.length := by
  simp [bAdd]

theorem row_matMap (f : ℚ → ℚ) (m : Mat) (i : ℕ) (hi : i < m.length) :
    (matMap f m).getD i [] = (m.getD i []).map f :=
  map_getD _ [] [] m i hi

theorem row_matSmul (c : ℚ) (m : Mat) (i : ℕ) (hi : i < m.length) :
    (matSmul c m).getD i [] = (m.getD i []).map (c * ·) :=
  map_getD _ [] [] m i hi

theorem row_matAdd (a b : Mat) (i : ℕ) (hia : i < a.length) (hib : i < b.length) :
    (matAdd a b).getD i [] = List.zipWith (· + ·) (a.getD i []) (b.getD i []) :=
  zipWith_getD _ [] [] [] a b i hia hib

theorem row_bMul (m : Mat) (v : Vec) (i : ℕ) (hi : i < m.length) :
    (bMul m v).getD i [] = List.zipWith (· * ·) (m.getD i []) v :=
  map_getD _ [] [] m i hi

theorem row_bAdd (m : Mat) (v : Vec) (i : ℕ) (hi : i < m.length) :
    (bAdd m v).getD i [] = List.zipWith (· + ·) (m.getD i []) v :=
  map_getD _ [] [] m i hi

theorem entry_matAdd (a b : Mat) (i j : ℕ) (hia : i < a.length) (hib : i < b.length)
    (hja : j < (a.getD i []).length) (hjb : j < (b.getD i []).length) :
    entry (matAdd a b) i j = entry a i j + entry b i j := by
  unfold entry
  rw [row_matAdd a b i hia hib, zipWith_getD _ 0 0 0 _ _ j hja hjb]

theorem entry_matMap (f : ℚ → ℚ) (m : Mat) (i j : ℕ) (hi : i < m.length)
    (hj : j < (m.getD i []).length) :
    entry (matMap f m) i j = f (entry m i j) := by
  unfold entry
  rw [row_matMap f m i hi, map_getD _ 0 0 _ j hj]

theorem entry_matSmul (c : ℚ) (m : Mat) (i j : ℕ) (hi : i < m.length)
    (hj : j < (m.getD i []).length) :
    entry (matSmul c m) i j = c * entry m i j := by
  unfold entry
  rw [row_matSmul c m i hi, map_getD _ 0 0 _ j hj]

theorem entry_bMul (m : Mat) (v : Vec) (i j : ℕ) (hi : i < m.length)
    (hj : j < (m.getD i []).length) (hjv : j < v.length) :
    entry (bMul m v) i j = entry m i j * entryV v j := by
  unfold entry entryV
  rw [row_bMul m v i hi, zipWith_getD _ 0 0 0 _ _ j hj hjv]

theorem entry_bAdd (m : Mat) (v : Vec) (i j : ℕ) (hi : i < m.length)
    (hj : j < (m.getD i []).length) (hjv : j < v.length) :
    entry (bAdd m v) i j = entry m i j + entryV v j := by
  unfold entry entryV
  rw [row_bAdd m v i hi, zipWith_getD _ 0 0 0 _ _ j hj hjv]

/-! ### Entrywise value of `recovered_lps` in each mode -/

theorem recovered_one_entry (ln : ℚ → ℚ) (noisy irm lps : Mat) (mean var : Vec)
    (R : Mat) (i j : ℕ)
    (hr : recovered_lps ln 1 noisy irm lps mean var = some R)
    (hi1 : i < noisy.length) (hi2 : i < irm.length)
    (hj1 : j < (noisy.getD i []).length) (hj2 : j < (irm.getD i []).length) :
    entry R i j = entry noisy i j + ln (entry irm i j) := by
  unfold recovered_lps at hr
  norm_num at hr
  rw [← hr]
  rw [entry_matAdd noisy (matMap ln irm) i j hi1
    (by rw [length_matMap]; exact hi2) hj1
    (by rw [row_matMap ln irm i hi2, List.length_map]; exact hj2)]
  rw [entry_matMap ln irm i j hi2 hj2]

theorem recovered_two_entry (ln : ℚ → ℚ) (noisy irm lps : Mat) (mean var : Vec)
    (R : Mat) (i j : ℕ)
    (hr : recovered_lps ln 2 noisy irm lps mean var = some R)
    (hi : i < lps.length) (hj : j < (lps.getD i []).length)
    (hjv : j < var.length) (hjm : j < mean.length) :
    entry R i j = entry lps i j * entryV var j + entryV mean j := by
  unfold recovered_lps at hr
  norm_num at hr
  rw [← hr]
  rw [entry_bAdd (bMul lps var) mean i j (by rw [length_bMul]; exact hi)
    (by rw [row_bMul lps var i hi, List.length_zipWith]; omega) hjm]
  rw [entry_bMul lps var i j hi hj hjv]

theorem recovered_three_entry (ln : ℚ → ℚ) (noisy irm lps : Mat) (mean var : Vec)
    (R : Mat) (i j : ℕ)
    (hr : recovered_lps ln 3 noisy irm lps mean var = some R)
    (hi1 : i < noisy.length) (hi2 : i < irm.length) (hi3 : i < lps.length)
    (hj1 : j < (noisy.getD i []).length) (hj2 : j < (irm.getD i []).length)
    (hj3 : j < (lps.getD i []).length)
    (hjv : j < var.length) (hjm : j < mean.length) :
    entry R i j = 1/2 * (entry noisy i j + ln (entry irm i j))
      + 1/2 * (entry lps i j * entryV var j + entryV mean j) := by
  unfold recovered_lps at hr
  norm_num at hr
  rw [← hr]
  have hiA : i < (matAdd noisy (matMap ln irm)).length := by
    rw [length_matAdd, length_matMap]; omega
  have hjA : j < ((matAdd noisy (matMap ln irm)).getD i []).length := by
    rw [row_matAdd noisy (matMap ln irm) i hi1 (by rw [length_matMap]; exact hi2)]
    rw [row_matMap ln irm i hi2, List.length_zipWith, List.length_map]
    omega
  have hiB : i < (bAdd (bMul lps var) mean).length := by
    rw [length_bAdd, length_bMul]; exact hi3
  have hjB : j < ((bAdd (bMul lps var) mean).getD i []).length := by
    rw [row_bAdd (bMul lps var) mean i (by rw [length_bMul]; exact hi3)]
    rw [row_bMul lps var i hi3, List.length_zipWith, List.length_zipWith]
    omega
  rw [entry_matAdd _ _ i j (by rw [length_matSmul]; exact hiA)
    (by rw [length_matSmul]; exact hiB)
    (by rw [row_matSmul _ _ i hiA, List.length_map]; exact hjA)
    (by rw [row_matSmul _ _ i hiB, List.length_map]; exact hjB)]
  rw [entry_matSmul _ _ i j hiA hjA, entry_matSmul _ _ i j hiB hjB]
  rw [entry_matAdd noisy (matMap ln irm) i j hi1
    (by rw [length_matMap]; exact hi2) hj1
    (by rw [row_matMap ln irm i hi2, List.length_map]; exact hj2)]
  rw [entry_matMap ln irm i j hi2 hj2]
  rw [entry_bAdd (bMul lps var) mean i j (by rw [length_bMul]; exact hi3)
    (by rw [row_bMul lps var i hi3, List.length_zipWith]; omega) hjm]
  rw [entry_bMul lps var i j hi3 hj3 hjv]

/-! ### Lemmas about the 16-bit cast -/

theorem toInt16_modeq (z : ℤ) : toInt16 z ≡ z [ZMOD 65536] := by
  have h1 : (z + 32768) % 65536 ≡ z + 32768 [ZMOD 65536] :=
    Int.emod_emod_of_dvd (z + 32768) dvd_rfl
  have h2 := h1.sub_right 32768
  simpa [toInt16] using h2

theorem toInt16_lb (z : ℤ) : -32768 ≤ toInt16 z := by
  have := Int.emod_nonneg (z + 32768) (show (65536 : ℤ) ≠ 0 by norm_num)
  unfold toInt16
  omega

theorem toInt16_ub (z : ℤ) : toInt16 z < 32768 := by
  have := Int.emod_lt_of_pos (z + 32768) (show (0 : ℤ) < 65536 by norm_num)
  unfold toInt16
  omega

theorem toInt16_of_range (z : ℤ) (h1 : -32768 ≤ z) (h2 : z < 32768) :
    toInt16 z = z := by
  unfold toInt16
  rw [Int.emod_eq_of_lt (by omega) (by omega)]
  omega

/-! ### Further support lemmas -/

theorem ratTrunc_intCast (z : ℤ) : ratTrunc ((z : ℚ)) = z := by
  unfold ratTrunc
  rw [Rat.num_intCast, Rat.den_intCast, Nat.cast_one]
  exact Int.tdiv_one z

theorem chunk_length_nonneg (t : ℚ) (rate : ℕ) (ht : 0 ≤ t) :
    0 ≤ chunk_length t rate := by
  unfold chunk_length ratTrunc
  exact Int.tdiv_nonneg (Rat.num_nonneg.mpr (by positivity)) (Int.natCast_nonneg _)

theorem chunk_count_bounds (L cl n : ℕ) (hL : 0 < L) (hcl : 0 < cl)
    (hn : (L + cl - 1) / cl = n) :
    L ≤ n * cl ∧ (n - 1) * cl < L ∧ 1 ≤ n := by
  have hsplit : (L + cl - 1) / cl = (L - 1) / cl + 1 := by
    rw [show L + cl - 1 = (L - 1) + cl by omega]
    exact Nat.add_div_right _ hcl
  have h1 : L ≤ cl * ((L - 1) / cl + 1) := by
    have h := Nat.lt_mul_div_succ (L - 1) hcl
    omega
  have h2 : (L - 1) / cl * cl < L := by
    have h := Nat.div_mul_le_self (L - 1) cl
    omega
  have hn2 : n = (L - 1) / cl + 1 := by rw [← hn]; exact hsplit
  subst hn2
  refine ⟨?_, ?_, Nat.le_add_left 1 _⟩
  · calc L ≤ cl * ((L - 1) / cl + 1) := h1
      _ = ((L - 1) / cl + 1) * cl := by ring
  · simpa using h2

theorem denoise_segments_eq (ops : ExternalOps) (mode : ℤ) (ms : String)
    (mean var : Vec) (t : ℚ) (rate : ℕ) (buf : List ℤ) (cl n : ℕ)
    (hcl : chunk_length t rate = (cl : ℤ)) (hcl0 : 0 < cl)
    (hn : (total_chunks buf.length (chunk_length t rate)).toNat = n) :
    denoise_segments ops mode ms mean var t rate buf
      = mapME (processChunk ops mode ms mean var) (pyChunks buf cl n) := by
  unfold denoise_segments
  rw [hcl] at hn ⊢
  rw [if_neg (by exact_mod_cast hcl0.ne')]
  simp only [peak_normalization]
  rw [Int.toNat_natCast, hn]

theorem main_denoising_getD (ops : ExternalOps) (mode : ℤ) (ms : String)
    (mean var : Vec) (t : ℚ) (verbose : Bool) (files : List WavFile) (i : ℕ)
    (hi : i < files.length) :
    (main_denoising ops mode ms mean var t verbose files).getD i default
      = processFile ops mode ms mean var t verbose (files.getD i default) := by
  unfold main_denoising
  exact map_getD _ default default files i hi

/-- Concrete value of `chunk_length` used by witnesses:
`truncate_minutes = 1/480000` at 16000 Hz gives two samples per chunk. -/
theorem chunk_length_two : chunk_length (1/480000) 16000 = ((2 : ℕ) : ℤ) := by
  unfold chunk_length
  rw [show (1/480000 : ℚ) * ((16000 : ℕ) : ℚ) * 60 = ((2:ℤ) : ℚ) by norm_num]
  rw [ratTrunc_intCast]
  norm_num

/-- A fixed instantiation of the external collaborators, used only to
exhibit concrete runs of the pipeline. -/
def witnessOps : ExternalOps :=
  { ln := id
    wav2logspec := fun _ => []
    logspec2wav := fun _ l => l
    decode := fun _ => .ok ([], [])
    fm := fun e => e.msg }

/-! ### Claims -/

/-- C1: for every input buffer of length `L > 0` and every
`truncate_minutes` giving `chunk_length = floor(truncate_minutes*60*rate)
>= 1`, the chunking loop produces exactly `ceil(L/chunk_length)` chunks, in
order, with chunk `k` (0-based here; the source loop is 1-based) covering
`[k*chunk_length, (k+1)*chunk_length)` clipped to `L`; every chunk but the
last has length `chunk_length`, the last has length
`L - (total_chunks-1)*chunk_length`, and the chunks partition the buffer
exactly. -/
theorem C1_chunk_partition (buf : List ℤ) (t : ℚ) (rate : ℕ) (cl n : ℕ)
    (hcl : chunk_length t rate = (cl : ℤ)) (hcl1 : 1 ≤ cl) (hL : 0 < buf.length)
    (hn : (total_chunks buf.length (chunk_length t rate)).toNat = n) :
    n = (buf.length + cl - 1) / cl
    ∧ (pyChunks buf cl n).length = n
    ∧ (∀ k, k < n → (pyChunks buf cl n).getD k [] = (buf.drop (k * cl)).take cl)
    ∧ (∀ k, k + 1 < n → ((pyChunks buf cl n).getD k []).length = cl)
    ∧ ((pyChunks buf cl n).getD (n - 1) []).length = buf.length - (n - 1) * cl
    ∧ (pyChunks buf cl n).flatten = buf := by
  rw [hcl] at hn
  rw [total_chunks_toNat buf.length cl hL hcl1] at hn
  obtain ⟨hub, hlast, hn1⟩ := chunk_count_bounds buf.length cl n hL hcl1 hn
  refine ⟨hn.symm, pyChunks_length buf cl n,
    fun k hk => pyChunks_getD buf cl n k hk, ?_, ?_, ?_⟩
  · intro k hk
    rw [pyChunks_getD buf cl n k (by omega)]
    rw [List.length_take, List.length_drop]
    have hk1 : (k + 1) * cl ≤ (n - 1) * cl := Nat.mul_le_mul_right cl (by omega)
    have hs : (k + 1) * cl = k * cl + cl := Nat.succ_mul k cl
    omega
  · rw [pyChunks_getD buf cl n (n - 1) (by omega)]
    rw [List.length_take, List.length_drop]
    have hs : ((n - 1) + 1) * cl = (n - 1) * cl + cl := Nat.succ_mul (n - 1) cl
    rw [show (n - 1) + 1 = n by omega] at hs
    omega
  · exact pyChunks_flatten_full buf cl n hub

/-- Witness for C1: five samples and chunk length two give three chunks
that reassemble to the buffer. -/
theorem C1_chunk_partition_witness :
    chunk_length (1/480000) 16000 = ((2 : ℕ) : ℤ)
    ∧ (pyChunks ([10, 20, 30, 40, 50] : List ℤ) 2 3).length = 3
    ∧ (pyChunks ([10, 20, 30, 40, 50] : List ℤ) 2 3).flatten = [10, 20, 30, 40, 50] := by
  have hn : (total_chunks (List.length ([10, 20, 30, 40, 50] : List ℤ))
      (chunk_length (1/480000) 16000)).toNat = 3 := by
    rw [chunk_length_two]
    rw [show List.length ([10, 20, 30, 40, 50] : List ℤ) = 5 from rfl]
    rw [total_chunks_toNat 5 2 (by norm_num) (by norm_num)]
  have h := C1_chunk_partition [10, 20, 30, 40, 50] (1/480000) 16000 2 3
    chunk_length_two (by norm_num) (by decide) hn
  exact ⟨chunk_length_two, h.2.1, h.2.2.2.2.2⟩

/-- C7: for every chunk whose isolated estimator invocation raises an
error, the error is captured inside the isolated execution context
together with its formatted traceback (`Process.run` sends the pair over
the pipe), and it is re-raised to the caller as `raise type(e)(tb)` — an
exception with the original type and the captured trace text as its
message. -/
theorem C7_gateway_reraise (fm : PyExc → String) (r : Except PyExc (Mat × Mat))
    (e : PyExc) (h : r = .error e) :
    Process_exception r fm = some (e, fm e)
    ∧ gatewayCall r fm = .error { ty := e.ty, msg := fm e } := by
  subst h
  exact ⟨rfl, rfl⟩

/-- Witness for C7: a concrete decode failure is re-raised with its type
and trace preserved. -/
theorem C7_gateway_reraise_witness :
    (Except.error { ty := "RuntimeError", msg := "decode failed" }
        : Except PyExc (Mat × Mat)) = .error { ty := "RuntimeError", msg := "decode failed" }
    ∧ gatewayCall
        (Except.error { ty := "RuntimeError", msg := "decode failed" }
          : Except PyExc (Mat × Mat)) PyExc.msg
      = .error { ty := "RuntimeError", msg := "decode failed" } := by
  have h := C7_gateway_reraise PyExc.msg _ { ty := "RuntimeError", msg := "decode failed" } rfl
  exact ⟨rfl, h.2⟩

/-- C8: whenever the computed `chunk_length = int(truncate_minutes*60*rate)`
is below one (for nonnegative `truncate_minutes`, i.e. it truncates to
zero), the chunk scheduler raises an error (`ZeroDivisionError` from the
`total_chunks` division) instead of proceeding with chunking, and
`denoise_wav` propagates it. -/
theorem C8_zero_chunk_length (ops : ExternalOps) (mode : ℤ) (ms : String)
    (mean var : Vec) (t : ℚ) (rate : ℕ) (buf : List ℤ)
    (ht : 0 ≤ t) (hlt : chunk_length t rate < 1) :
    chunk_length t rate = 0
    ∧ denoise_segments ops mode ms mean var t rate buf
        = .error { ty := "ZeroDivisionError", msg := "division by zero" }
    ∧ denoise_wav ops mode ms mean var t rate buf
        = .error { ty := "ZeroDivisionError", msg := "division by zero" } := by
  have h0 : chunk_length t rate = 0 := by
    have hnn := chunk_length_nonneg t rate ht
    omega
  have hds : denoise_segments ops mode ms mean var t rate buf
      = .error { ty := "ZeroDivisionError", msg := "division by zero" } := by
    unfold denoise_segments
    rw [if_pos h0]
  refine ⟨h0, hds, ?_⟩
  unfold denoise_wav
  rw [hds]

/-- Witness for C8: `truncate_minutes = 0` gives chunk length zero and the
division error. -/
theorem C8_zero_chunk_length_witness :
    (0 : ℚ) ≤ 0
    ∧ chunk_length 0 16000 < 1
    ∧ denoise_wav witnessOps 3 "1000h" [] [] 0 16000 [1, 2, 3]
        = .error { ty := "ZeroDivisionError", msg := "division by zero" } := by
  have hcl : chunk_length 0 16000 = 0 := by
    unfold chunk_length
    rw [show (0 : ℚ) * ((16000 : ℕ) : ℚ) * 60 = ((0:ℤ) : ℚ) by norm_num]
    rw [ratTrunc_intCast]
  have h := C8_zero_chunk_length witnessOps 3 "1000h" [] [] 0 16000 [1, 2, 3]
    le_rfl (by rw [hcl]; norm_num)
  exact ⟨le_rfl, by rw [hcl]; norm_num, h.2.2⟩

/-- C9: the assembler concatenates the reconstructed segments (including
pass-through short chunks) in chunk order and casts each sample with the
wrapping 16-bit conversion `toInt16`: the result is congruent to the input
modulo `2^16` and lies in `[-32768, 32768)`, in-range values pass through
unchanged, and out-of-range values wrap instead of clamping
(`toInt16 40000 = -25536`, not `32767`). -/
theorem C9_assemble_wrapping_cast (segs : List (List ℤ)) (h : segs ≠ []) :
    assemble segs = .ok ((segs.map (List.map toInt16)).flatten)
    ∧ (∀ z : ℤ, toInt16 z ≡ z [ZMOD 65536] ∧ -32768 ≤ toInt16 z ∧ toInt16 z < 32768)
    ∧ (∀ z : ℤ, -32768 ≤ z → z < 32768 → toInt16 z = z)
    ∧ toInt16 40000 = -25536 := by
  refine ⟨?_, fun z => ⟨toInt16_modeq z, toInt16_lb z, toInt16_ub z⟩,
    toInt16_of_range, by decide⟩
  unfold assemble
  rw [if_neg ?hne]
  case hne =>
    simp only [List.isEmpty_iff, List.map_eq_nil_iff]
    exact h

/-- Witness for C9: a one-segment list with an overflowing sample wraps to
a negative value. -/
theorem C9_assemble_wrapping_cast_witness :
    ([[40000]] : List (List ℤ)) ≠ []
    ∧ assemble [[40000]] = .ok [-25536] := by
  have h := C9_assemble_wrapping_cast [[40000]] (by decide)
  refine ⟨by decide, ?_⟩
  rw [h.1]
  rfl

/-- C2: every chunk with fewer than `WL2 = 256` samples skips feature
extraction, estimation and reconstruction (the loop body returns the chunk
for every choice of the external collaborators) and its samples appear in
the enhanced segment list byte-identical to the corresponding slice of the
input buffer; the 16-bit cast leaves them unchanged because input samples
are 16-bit values. -/
theorem C2_short_chunk_passthrough (ops : ExternalOps) (mode : ℤ)
    (ms : String) (mean var : Vec) (t : ℚ) (rate : ℕ) (buf : List ℤ)
    (segs : List (List ℤ)) (cl n k : ℕ)
    (hcl : chunk_length t rate = (cl : ℤ)) (hcl0 : 0 < cl)
    (hn : (total_chunks buf.length (chunk_length t rate)).toNat = n)
    (hseg : mapME (processChunk ops mode ms mean var) (pyChunks buf cl n) = .ok segs)
    (hk : k < n)
    (hshort : ((buf.drop (k * cl)).take cl).length < WL2)
    (hrange : ∀ x ∈ buf, -32768 ≤ x ∧ x < 32768) :
    denoise_segments ops mode ms mean var t rate buf = .ok segs
    ∧ (∀ ops2 : ExternalOps,
        processChunk ops2 mode ms mean var ((buf.drop (k * cl)).take cl)
          = .ok ((buf.drop (k * cl)).take cl))
    ∧ segs.getD k [] = (buf.drop (k * cl)).take cl
    ∧ (segs.getD k []).map toInt16 = (buf.drop (k * cl)).take cl := by
  have hpass : ∀ ops2 : ExternalOps,
      processChunk ops2 mode ms mean var ((buf.drop (k * cl)).take cl)
        = .ok ((buf.drop (k * cl)).take cl) := by
    intro ops2
    unfold processChunk
    rw [if_pos hshort]
  have happ := mapME_ok_getD _ _ _ [] [] hseg k (by rw [pyChunks_length]; exact hk)
  rw [pyChunks_getD buf cl n k hk, hpass ops] at happ
  have hk_eq : segs.getD k [] = (buf.drop (k * cl)).take cl :=
    (Except.ok.inj happ).symm
  refine ⟨?_, hpass, hk_eq, ?_⟩
  · rw [denoise_segments_eq ops mode ms mean var t rate buf cl n hcl hcl0 hn]
    exact hseg
  · rw [hk_eq]
    have hel : ∀ x ∈ (buf.drop (k * cl)).take cl, toInt16 x = id x := by
      intro x hx
      have hxb : x ∈ buf := List.drop_subset _ _ (List.take_subset _ _ hx)
      exact toInt16_of_range x (hrange x hxb).1 (hrange x hxb).2
    rw [List.map_congr_left hel, List.map_id]

/-- Witness for C2: a three-sample buffer at chunk length two gives two
short chunks, both passed through unchanged. -/
theorem C2_short_chunk_passthrough_witness :
    mapME (processChunk witnessOps 3 "1000h" [] []) (pyChunks [1, 2, 3] 2 2)
      = .ok [[1, 2], [3]]
    ∧ denoise_segments witnessOps 3 "1000h" [] [] (1/480000) 16000 [1, 2, 3]
      = .ok [[1, 2], [3]]
    ∧ ([[1, 2], [3]] : List (List ℤ)).getD 1 []
      = (([1, 2, 3] : List ℤ).drop (1 * 2)).take 2 := by
  have hn : (total_chunks (List.length ([1, 2, 3] : List ℤ))
      (chunk_length (1/480000) 16000)).toNat = 2 := by
    rw [chunk_length_two]
    rw [show List.length ([1, 2, 3] : List ℤ) = 3 from rfl]
    rw [total_chunks_toNat 3 2 (by norm_num) (by norm_num)]
  have hseg : mapME (processChunk witnessOps 3 "1000h" [] [])
      (pyChunks [1, 2, 3] 2 2) = .ok [[1, 2], [3]] := rfl
  have h := C2_short_chunk_passthrough witnessOps 3 "1000h" [] [] (1/480000)
    16000 [1, 2, 3] [[1, 2], [3]] 2 2 1 chunk_length_two (by norm_num) hn hseg
    (by norm_num) (by decide) (by decide)
  exact ⟨hseg, h.1, h.2.2.1⟩

/-- C3: for every chunk processed in mode 1 (IRM only), with IRM values in
`(0, 1]`, the recovered spectrum satisfies
`recovered_lps = noisy_lps + ln(IRM)` elementwise, where `noisy_lps` is the
unnormalized log-power-spectrum matrix of the chunk. -/
theorem C3_irm_mask_additive (ln : ℚ → ℚ) (noisy irm lps : Mat)
    (mean var : Vec) (R : Mat) (i j : ℕ)
    (hr : recovered_lps ln 1 noisy irm lps mean var = some R)
    (_hirm : ∀ row ∈ irm, ∀ x ∈ row, 0 < x ∧ x ≤ 1)
    (hi1 : i < noisy.length) (hi2 : i < irm.length)
    (hj1 : j < (noisy.getD i []).length) (hj2 : j < (irm.getD i []).length) :
    entry R i j = entry noisy i j + ln (entry irm i j) :=
  recovered_one_entry ln noisy irm lps mean var R i j hr hi1 hi2 hj1 hj2

/-- Witness for C3 at the one-entry matrices with IRM value `1`. -/
theorem C3_irm_mask_additive_witness :
    recovered_lps id 1 [[1]] [[1]] [[1]] [1] [1]
      = some (matAdd [[1]] (matMap id [[1]]))
    ∧ entry (matAdd [[1]] (matMap id [[1]])) 0 0
      = entry [[1]] 0 0 + id (entry [[1]] 0 0) := by
  have h := C3_irm_mask_additive id [[1]] [[1]] [[1]] [1] [1]
    (matAdd [[1]] (matMap id [[1]])) 0 0 rfl (by decide) (by decide) (by decide)
    (by decide) (by decide)
  exact ⟨rfl, h⟩

/-- C4: variant `"400h"` sends normalized features
`(feature - mean) / variance` to the estimator while variant `"1000h"`
sends the raw features, yet the returned LPS estimate is de-normalized as
`lps*variance + mean` in modes 2 and 3 alike — a computation that does not
consult the variant at all; in particular mode 2 satisfies
`recovered_lps = LPS*variance + mean` elementwise. -/
theorem C4_variant_normalization (ln : ℚ → ℚ) (noisy irm lps : Mat)
    (mean var : Vec) (R : Mat) (i j : ℕ)
    (hr : recovered_lps ln 2 noisy irm lps mean var = some R)
    (hi : i < lps.length) (hj : j < (lps.getD i []).length)
    (hjv : j < var.length) (hjm : j < mean.length) :
    sentFeatures "400h" noisy mean var = some (bDiv (bSub noisy mean) var)
    ∧ sentFeatures "1000h" noisy mean var = some noisy
    ∧ entry R i j = entry lps i j * entryV var j + entryV mean j
    ∧ (∀ R3, recovered_lps ln 3 noisy irm lps mean var = some R3 →
        i < noisy.length → i < irm.length →
        j < (noisy.getD i []).length → j < (irm.getD i []).length →
        entry R3 i j = 1/2 * (entry noisy i j + ln (entry irm i j))
          + 1/2 * (entry lps i j * entryV var j + entryV mean j)) := by
  refine ⟨?_, ?_,
    recovered_two_entry ln noisy irm lps mean var R i j hr hi hj hjv hjm,
    fun R3 hr3 hi1 hi2 hj1 hj2 =>
      recovered_three_entry ln noisy irm lps mean var R3 i j hr3 hi1 hi2 hi
        hj1 hj2 hj hjv hjm⟩
  · unfold sentFeatures
    rw [if_pos (show lowerStr "400h" = "400h" from by decide)]
  · unfold sentFeatures
    rw [if_neg (show ¬ lowerStr "1000h" = "400h" from by decide),
      if_pos (show lowerStr "1000h" = "1000h" from by decide)]

/-- Witness for C4 at the one-entry matrices. -/
theorem C4_variant_normalization_witness :
    recovered_lps id 2 [[1]] [[1]] [[1]] [1] [1]
      = some (bAdd (bMul [[1]] [1]) [1])
    ∧ sentFeatures "400h" [[1]] [1] [1] = some (bDiv (bSub [[1]] [1]) [1])
    ∧ sentFeatures "1000h" [[1]] [1] [1] = some [[1]] := by
  have h := C4_variant_normalization id [[1]] [[1]] [[1]] [1] [1]
    (bAdd (bMul [[1]] [1]) [1]) 0 0 rfl (by decide) (by decide) (by decide)
    (by decide)
  exact ⟨rfl, h.1, h.2.1⟩

/-- C5: on the same inputs, the mode-3 (BLEND) recovered spectrum is the
elementwise average of the mode-1 (IRM only) and mode-2 (LPS only)
recovered spectra. -/
theorem C5_blend_is_average (ln : ℚ → ℚ) (noisy irm lps : Mat)
    (mean var : Vec) (R1 R2 R3 : Mat) (i j : ℕ)
    (hr1 : recovered_lps ln 1 noisy irm lps mean var = some R1)
    (hr2 : recovered_lps ln 2 noisy irm lps mean var = some R2)
    (hr3 : recovered_lps ln 3 noisy irm lps mean var = some R3)
    (hi1 : i < noisy.length) (hi2 : i < irm.length) (hi3 : i < lps.length)
    (hj1 : j < (noisy.getD i []).length) (hj2 : j < (irm.getD i []).length)
    (hj3 : j < (lps.getD i []).length)
    (hjv : j < var.length) (hjm : j < mean.length) :
    entry R3 i j = (entry R1 i j + entry R2 i j) / 2 := by
  rw [recovered_one_entry ln noisy irm lps mean var R1 i j hr1 hi1 hi2 hj1 hj2,
    recovered_two_entry ln noisy irm lps mean var R2 i j hr2 hi3 hj3 hjv hjm,
    recovered_three_entry ln noisy irm lps mean var R3 i j hr3 hi1 hi2 hi3
      hj1 hj2 hj3 hjv hjm]
  ring

/-- Witness for C5 at the one-entry matrices. -/
theorem C5_blend_is_average_witness :
    recovered_lps id 3 [[1]] [[1]] [[1]] [1] [1]
      = some (matAdd (matSmul (1/2) (matAdd [[1]] (matMap id [[1]])))
          (matSmul (1/2) (bAdd (bMul [[1]] [1]) [1])))
    ∧ entry (matAdd (matSmul (1/2) (matAdd [[1]] (matMap id [[1]])))
          (matSmul (1/2) (bAdd (bMul [[1]] [1]) [1]))) 0 0
      = (entry (matAdd [[1]] (matMap id [[1]])) 0 0
          + entry (bAdd (bMul [[1]] [1]) [1]) 0 0) / 2 := by
  have h := C5_blend_is_average id [[1]] [[1]] [[1]] [1] [1]
    (matAdd [[1]] (matMap id [[1]])) (bAdd (bMul [[1]] [1]) [1])
    (matAdd (matSmul (1/2) (matAdd [[1]] (matMap id [[1]])))
      (matSmul (1/2) (bAdd (bMul [[1]] [1]) [1]))) 0 0
    rfl rfl rfl (by decide) (by decide) (by decide) (by decide) (by decide)
    (by decide) (by decide) (by decide)
  exact ⟨rfl, h⟩

/-- C6: in a batch, a file that fails a precondition check or whose
pipeline raises is skipped with a diagnostic (the full error output is
appended only in verbose mode), no output is written for it, and every
file in the batch still gets its own outcome computed from that file
alone. -/
theorem C6_file_isolation (ops : ExternalOps) (mode : ℤ) (ms : String)
    (mean var : Vec) (t : ℚ) (verbose : Bool) (files : List WavFile) (k : ℕ)
    (hk : k < files.length)
    (hbad : checkFile (files.getD k default) ≠ none
      ∨ ∃ e, denoise_wav ops mode ms mean var t (files.getD k default).sr
          (files.getD k default).samples = .error e) :
    (∃ m, (main_denoising ops mode ms mean var t verbose files).getD k default
        = .skipped m)
    ∧ (∀ e, checkFile (files.getD k default) = none →
        denoise_wav ops mode ms mean var t (files.getD k default).sr
          (files.getD k default).samples = .error e →
        (main_denoising ops mode ms mean var t verbose files).getD k default
          = .skipped (errMsg verbose e))
    ∧ (main_denoising ops mode ms mean var t verbose files).length = files.length
    ∧ (∀ i, i < files.length →
        (main_denoising ops mode ms mean var t verbose files).getD i default
          = processFile ops mode ms mean var t verbose (files.getD i default)) := by
  refine ⟨?_, ?_, by simp [main_denoising],
    fun i hi => main_denoising_getD ops mode ms mean var t verbose files i hi⟩
  · rw [main_denoising_getD ops mode ms mean var t verbose files k hk]
    unfold processFile
    rcases hbad with hchk | ⟨e, he⟩
    · cases hc : checkFile (files.getD k default) with
      | none => exact absurd hc hchk
      | some m => exact ⟨m, rfl⟩
    · cases hc : checkFile (files.getD k default) with
      | some m => exact ⟨m, rfl⟩
      | none =>
        rw [he]
        exact ⟨errMsg verbose e, rfl⟩
  · intro e hc he
    rw [main_denoising_getD ops mode ms mean var t verbose files k hk]
    unfold processFile
    rw [hc, he]

/-- A wrong-sample-rate input file used by witnesses. -/
def badRateFile : WavFile :=
  { basename := "bad.wav"
    onDisk := true
    isWavFormat := true
    sr := 8000
    numChannels := 1
    bitdepth := 16
    samples := [0] }

/-- A well-formed input file used by witnesses. -/
def goodFile : WavFile :=
  { basename := "good.wav"
    onDisk := true
    isWavFormat := true
    sr := 16000
    numChannels := 1
    bitdepth := 16
    samples := [5] }

/-- A well-formed input file with an empty sample sequence, used by
witnesses. -/
def emptyFile : WavFile :=
  { basename := "empty.wav"
    onDisk := true
    isWavFormat := true
    sr := 16000
    numChannels := 1
    bitdepth := 16
    samples := [] }

/-- Witness for C6: a batch of a wrong-sample-rate file followed by a good
file; the first is skipped and the second still produces its own outcome. -/
theorem C6_file_isolation_witness :
    checkFile badRateFile ≠ none
    ∧ ∃ m, (main_denoising witnessOps 3 "1000h" [] [] (1/480000) false
        [badRateFile, goodFile]).getD 0 default = .skipped m := by
  have h := C6_file_isolation witnessOps 3 "1000h" [] [] (1/480000) false
    [badRateFile, goodFile] 0 (by decide) (Or.inl (by decide))
  exact ⟨by decide, h.1⟩

/-- C10: a validly formatted input file whose sample sequence is empty
yields zero chunks, so the concatenation of the empty segment list raises
`ValueError`; the file is skipped with that error and no output is
written, and the rest of the batch is still processed file by file. -/
theorem C10_empty_input (ops : ExternalOps) (mode : ℤ) (ms : String)
    (mean var : Vec) (t : ℚ) (verbose : Bool) (files : List WavFile) (k : ℕ)
    (hk : k < files.length)
    (hchk : checkFile (files.getD k default) = none)
    (hempty : (files.getD k default).samples = [])
    (hcl0 : chunk_length t (files.getD k default).sr ≠ 0) :
    total_chunks 0 (chunk_length t (files.getD k default).sr) = 0
    ∧ denoise_wav ops mode ms mean var t (files.getD k default).sr
        (files.getD k default).samples
      = .error { ty := "ValueError", msg := "need at least one array to concatenate" }
    ∧ (main_denoising ops mode ms mean var t verbose files).getD k default
      = .skipped (errMsg verbose
          { ty := "ValueError", msg := "need at least one array to concatenate" })
    ∧ (∀ i, i < files.length →
        (main_denoising ops mode ms mean var t verbose files).getD i default
          = processFile ops mode ms mean var t verbose (files.getD i default)) := by
  have herr : denoise_wav ops mode ms mean var t (files.getD k default).sr []
      = .error { ty := "ValueError", msg := "need at least one array to concatenate" } := by
    unfold denoise_wav denoise_segments
    rw [if_neg hcl0]
    simp only [peak_normalization, List.length_nil, total_chunks_zero,
      Int.toNat_zero]
    simp [pyChunks, mapME, assemble]
  refine ⟨total_chunks_zero _, by rw [hempty]; exact herr, ?_,
    fun i hi => main_denoising_getD ops mode ms mean var t verbose files i hi⟩
  rw [main_denoising_getD ops mode ms mean var t verbose files k hk]
  unfold processFile
  rw [hchk, hempty, herr]

/-- Witness for C10: an empty but validly formatted file is rejected at
the concatenation step. -/
theorem C10_empty_input_witness :
    checkFile emptyFile = none
    ∧ denoise_wav witnessOps 3 "1000h" [] [] (1/480000) 16000 []
      = .error { ty := "ValueError", msg := "need at least one array to concatenate" } := by
  have h := C10_empty_input witnessOps 3 "1000h" [] [] (1/480000) true
    [emptyFile] 0 (by decide) (by decide) rfl
    (by
      show chunk_length (1/480000) 16000 ≠ 0
      rw [chunk_length_two]
      norm_num)
  exact ⟨by decide, h.2.1⟩

end Denoising
